import Mathlib

/-!
Verification of the macro-dashboard scoring pipeline (`data/fetch_data.py`).

The pipeline is embedded shallowly over `ℚ`:
* a cleaned time series is a `List (ℤ × ℚ)` of (day, value) pairs in
  increasing day order (NaNs are assumed already dropped, as the source does
  with `.dropna()`),
* `today` is an explicit `ℤ` parameter standing for `TODAY`; the 5-year
  percentile cutoff is `today - 5*365` and the score-history cutoff is
  `today - (5*365 + 90)`, exactly as in the source,
* Python `round(x, k)` (banker's rounding) is modelled by `roundHalfEven`,
* `scipy.stats.percentileofscore(a, x, kind="rank")` and
  `numpy.percentile` (linear interpolation) are embedded by
  `percentileofscore` and `np_percentile_sorted` below; `np.percentile`
  raises on an empty array, which is modelled by `Option` in
  `percentile_dist`.
-/

/-- Banker's rounding to the nearest integer, the semantics of Python's
built-in `round`. -/
def roundHalfEven (x : ℚ) : ℤ :=
  if x - ⌊x⌋ < 1/2 then ⌊x⌋
  else if 1/2 < x - ⌊x⌋ then ⌊x⌋ + 1
  else if ⌊x⌋ % 2 = 0 then ⌊x⌋ else ⌊x⌋ + 1

/-- Python `round(x, 1)`. -/
def round1 (x : ℚ) : ℚ := (roundHalfEven (10 * x) : ℚ) / 10

/-- Python `round(x, 2)`. -/
def round2 (x : ℚ) : ℚ := (roundHalfEven (100 * x) : ℚ) / 100

/-- Embedding of `scipy.stats.percentileofscore(a, score, kind="rank")`:
`left = #{v ∈ a | v < score}`, `right = #{v ∈ a | v ≤ score}`, result
`(left + right + (1 if right > left else 0)) * 50 / n`.  (On an empty
array scipy would return NaN; the pipeline never calls it with fewer than
2 values.) -/
def percentileofscore (a : List ℚ) (score : ℚ) : ℚ :=
  let left := (a.filter (fun v => v < score)).length
  let right := (a.filter (fun v => v ≤ score)).length
  ((left : ℚ) + right + (if left < right then 1 else 0)) * 50 / a.length

/-- The 5-year window of a series: observations dated on or after
`today - 5*365`, values only (`hist` in `pct_rank`). -/
def window5y (today : ℤ) (s : List (ℤ × ℚ)) : List ℚ :=
  (s.filter (fun p => today - 5 * 365 ≤ p.1)).map Prod.snd

/-- Embedding of `pct_rank(series)`: percentile of the latest windowed value within the
past 5 years of data; neutral `50.0` when fewer than 2 values exist. -/
def pct_rank (today : ℤ) (s : List (ℤ × ℚ)) : ℚ :=
  let hist := window5y today s
  if hist.length < 2 then 50
  else percentileofscore hist (hist.getLastD 0)

/-- Embedding of `INVERT_FACTORS`: factor ids for which lower raw value means better
conditions (`score = 100 - percentile`). -/
def INVERT_FACTORS : List String :=
  ["tga-deviation", "on-rrp-buffer-risk",
   "collateral-repo-friction",
   "corridor-friction-1", "corridor-friction-2",
   "effr-iorb-spread", "cp-tbill-spread",
   "funding-fragmentation", "10y-rate-volatility",
   "real-rate-level",
   "nfci", "vix", "vix-term-structure",
   "fx-realized-volatility", "oil-volatility-deviation",
   "natural-gas",
   "dxy",
   "10y-breakeven"]

/-- Embedding of `score_from_pct(raw_pct, factor_id)`. -/
def score_from_pct (raw_pct : ℚ) (factor_id : String) : ℚ :=
  let score := if INVERT_FACTORS.contains factor_id then 100 - raw_pct else raw_pct
  round1 (max 0 (min 100 score))

/-- Embedding of `get_status(score)`. -/
def get_status (score : ℚ) : String :=
  if 66 ≤ score then "supportive"
  else if 33 ≤ score then "neutral"
  else "restrictive"

/-- Linear interpolation of a sorted sample at fractional position `pos`:
the interpolant between the order statistics at `⌊pos⌋` and `⌊pos⌋ + 1`. -/
def np_interp (s : List ℚ) (pos : ℚ) : ℚ :=
  let i : ℕ := (⌊pos⌋).toNat
  let lower := s.getD i 0
  let upper := s.getD (i + 1) lower
  lower + (pos - i) * (upper - lower)

/-- Embedding of `numpy.percentile` with the default linear interpolation, applied to an
already sorted nonempty list: position `q*(n-1)/100`, linear interpolation
between the two neighbouring order statistics. -/
def np_percentile_sorted (s : List ℚ) (q : ℚ) : ℚ :=
  np_interp s (q * ((s.length : ℚ) - 1) / 100)

/-- Embedding of `percentile_dist(series)`: the 10-bucket histogram of the trailing
5-year window; bucket `i` counts values `v` with
`np.percentile(hist, 10*i) ≤ v < np.percentile(hist, min(10*(i+1), 99.9))`.
`np.percentile` sorts its input and raises an `IndexError` on an empty
array; since every bucket's boundaries call it on the same window, the
whole histogram raises exactly when the window is empty, modelled by the
leading `none` branch. -/
def percentile_dist (today : ℤ) (s : List (ℤ × ℚ)) : Option (List ℕ) :=
  let hist := window5y today s
  if hist.isEmpty then none
  else some ((List.range 10).map (fun (i : ℕ) =>
    (hist.filter (fun v =>
      np_percentile_sorted (List.insertionSort (· ≤ ·) hist) (10 * (i : ℚ)) ≤ v ∧
      v < np_percentile_sorted (List.insertionSort (· ≤ ·) hist)
            (min (10 * ((i : ℚ) + 1)) (999/10)))).length))

/-- The 5-year + 90-day window used for score histories (`cutoff` in
`make_factor` / `make_score_series`). -/
def window5y90 (today : ℤ) (s : List (ℤ × ℚ)) : List (ℤ × ℚ) :=
  s.filter (fun p => today - (5 * 365 + 90) ≤ p.1)

/-- Embedding of `make_score_series(series, factor_id)`: the factor's daily score series,
each windowed value ranked against the same fixed window. -/
def make_score_series (today : ℤ) (s : List (ℤ × ℚ)) (factor_id : String) : List (ℤ × ℚ) :=
  let hist := window5y90 today s
  if hist.length < 5 then []
  else hist.map (fun p =>
    (p.1, score_from_pct (percentileofscore (hist.map Prod.snd) p.2) factor_id))

/-- The fields of a `make_factor` dict that the aggregation stages read. -/
structure FactorOut where
  fid : String
  historicalPercentile5Y : ℚ
  isExtra : Bool
deriving DecidableEq

/-- Embedding of `make_factor`: `None` when the (cleaned) series has fewer than 10
observations, else the factor record with its rounded 5-year percentile. -/
def make_factor (today : ℤ) (factor_id : String) (is_extra : Bool)
    (s : List (ℤ × ℚ)) : Option FactorOut :=
  if s.length < 10 then none
  else some ⟨factor_id, round1 (pct_rank today s), is_extra⟩

/-- Embedding of `MODULE_WEIGHTS`: each of the seven modules weighted `1/7`. -/
def MODULE_WEIGHTS : List (String × ℚ) :=
  [("liquidity", 1/7), ("funding", 1/7), ("treasury", 1/7), ("rates", 1/7),
   ("credit", 1/7), ("risk", 1/7), ("external", 1/7)]

/-- Embedding of `FACTOR_WEIGHTS[slug].get(fid)`: the configured factor weight table. -/
def FACTOR_WEIGHTS (slug : String) (fid : String) : Option ℚ :=
  if slug = "liquidity" then
    if fid = "fed-net-liquidity" then some (30/100)
    else if fid = "bank-reserves" then some (20/100)
    else if fid = "net-liquidity-momentum" then some (25/100)
    else if fid = "tga-deviation" then some (15/100)
    else if fid = "on-rrp-buffer-risk" then some (10/100)
    else none
  else if slug = "funding" then
    if fid = "collateral-repo-friction" then some (18/100)
    else if fid = "corridor-friction-1" then some (22/100)
    else if fid = "corridor-friction-2" then some (18/100)
    else if fid = "effr-iorb-spread" then some (12/100)
    else if fid = "cp-tbill-spread" then some (20/100)
    else if fid = "funding-fragmentation" then some (10/100)
    else none
  else if slug = "treasury" then
    if fid = "30y-10y-term-premium" then some (35/100)
    else if fid = "10y-rate-volatility" then some (35/100)
    else if fid = "curve-curvature" then some (30/100)
    else none
  else if slug = "rates" then
    if fid = "real-rate-level" then some (50/100)
    else if fid = "real-curve" then some (15/100)
    else if fid = "10y-breakeven" then some (35/100)
    else none
  else if slug = "credit" then
    if fid = "nfci" then some (40/100)
    else if fid = "hy-credit" then some (25/100)
    else if fid = "ig-credit" then some (15/100)
    else if fid = "regional-banks-spy" then some (20/100)
    else none
  else if slug = "risk" then
    if fid = "vix" then some (30/100)
    else if fid = "vix-term-structure" then some (25/100)
    else if fid = "risk-vs-safe" then some (25/100)
    else if fid = "high-beta-preference" then some (20/100)
    else none
  else if slug = "external" then
    if fid = "dxy" then some (25/100)
    else if fid = "fx-realized-volatility" then some (20/100)
    else if fid = "wti-oil" then some (20/100)
    else if fid = "oil-volatility-deviation" then some (25/100)
    else if fid = "natural-gas" then some (10/100)
    else none
  else none

/-- Embedding of `fw.get(fid, 1.0 / len(scored))`: configured weight with equal-share
fallback for an unconfigured present factor. -/
def factor_weight (fw : String → Option ℚ) (n : ℕ) (fid : String) : ℚ :=
  (fw fid).getD (1 / (n : ℚ))

/-- The scored (non-extra) factors of a module. -/
def scored_of (factors : List FactorOut) : List FactorOut :=
  factors.filter (fun f => !f.isExtra)

/-- The `(score, weight)` pairs the module aggregation loop builds
(`scored_scores` / `scored_weights`). -/
def weighted_scores (fw : String → Option ℚ) (scored : List FactorOut) : List (ℚ × ℚ) :=
  scored.map (fun f =>
    (score_from_pct f.historicalPercentile5Y f.fid,
     factor_weight fw scored.length f.fid))

/-- Embedding of `module_score = round(sum(s*w)/w_total, 1)`, for an arbitrary configured
weight table `fw` (the pipeline passes `FACTOR_WEIGHTS.get(slug, {})`). -/
def module_score_fw (fw : String → Option ℚ) (scored : List FactorOut) : ℚ :=
  round1 ((((weighted_scores fw scored).map (fun p => p.1 * p.2)).sum)
    / (((weighted_scores fw scored).map (fun p => p.2)).sum))

/-- The module score as computed by `build_module_obj` for a slug. -/
def module_score (slug : String) (scored : List FactorOut) : ℚ :=
  module_score_fw (FACTOR_WEIGHTS slug) scored

/-- The dates of a module's score time series: the sorted union of the
dates of its contributing factor score series (the index of `pd.concat`). -/
def ts_dates (valids : List (String × List (ℤ × ℚ))) : List ℤ :=
  List.insertionSort (fun a b => a ≤ b) ((valids.flatMap (fun v => v.2.map Prod.fst)).dedup)

/-- One day's module score: `(df * weights).sum(axis=1)` with the configured
weights normalized to sum to 1 and, as in pandas, a factor missing that day
simply skipped. -/
def ts_value (fw : String → Option ℚ) (valids : List (String × List (ℤ × ℚ))) (d : ℤ) : ℚ :=
  let ws := valids.map (fun v => (fw v.1).getD (1 / (valids.length : ℚ)))
  let total := ws.sum
  (((valids.zip ws).filterMap (fun p => (List.lookup d p.1.2).map (· * (p.2 / total))))).sum

/-- Embedding of `mod_score_ts`: the module's historical score series. -/
def mod_score_ts (fw : String → Option ℚ) (valids : List (String × List (ℤ × ℚ))) :
    List (ℤ × ℚ) :=
  (ts_dates valids).map (fun d => (d, ts_value fw valids d))

/-- Embedding of `prev_score`: the module-score value 8 observations from the end of the
series (rounded), or the current module score when the series is too
short. -/
def module_prev_score (mscore : ℚ) (ts : List (ℤ × ℚ)) : ℚ :=
  if 7 < ts.length then round1 ((ts.map Prod.snd).getD (ts.length - 8) 0)
  else mscore

/-- The fields of a module dict that the index aggregation reads. -/
structure ModuleOut where
  score : ℚ
  prevScore : ℚ
  factors : List FactorOut
deriving DecidableEq

/-- Embedding of `build_module_obj(slug, name, factor_specs)` restricted to the fields
the index level consumes; `none` when no scored factor survives
`make_factor` (the module is dropped). -/
def build_module (today : ℤ) (data : String → List (ℤ × ℚ)) (slug : String)
    (specs : List (String × Bool)) : Option ModuleOut :=
  let factors := specs.filterMap (fun sp => make_factor today sp.1 sp.2 (data sp.1))
  let scored := scored_of factors
  if scored.isEmpty then none
  else
    let valids := (scored.map (fun f => (f.fid, make_score_series today (data f.fid) f.fid))).filter
      (fun v => !v.2.isEmpty)
    let ts := mod_score_ts (FACTOR_WEIGHTS slug) valids
    let mscore := module_score slug scored
    some ⟨mscore, module_prev_score mscore ts, factors⟩

/-- Embedding of `all_specs`: the fixed per-module factor lists, `(factor_id, is_extra)`. -/
def all_specs : List (String × List (String × Bool)) :=
  [("liquidity",
    [("fed-net-liquidity", false), ("bank-reserves", false),
     ("net-liquidity-momentum", false), ("tga-deviation", false),
     ("on-rrp-buffer-risk", false), ("fed-total-assets", true),
     ("treasury-general-account", true), ("on-rrp", true)]),
   ("funding",
    [("collateral-repo-friction", false), ("corridor-friction-1", false),
     ("corridor-friction-2", false), ("effr-iorb-spread", false),
     ("cp-tbill-spread", false), ("funding-fragmentation", false),
     ("effr", true), ("sofr", true), ("iorb", true),
     ("on-rrp-award-rate", true), ("obfr-rate", true)]),
   ("treasury",
    [("30y-10y-term-premium", false), ("10y-rate-volatility", false),
     ("curve-curvature", false), ("10y-2y-spread", true),
     ("10y-3m-spread", true), ("10y-nominal-rate", true),
     ("30y-rate", true), ("2y-rate", true)]),
   ("rates",
    [("real-rate-level", false), ("real-curve", false),
     ("10y-breakeven", false), ("5y-real-rate", true), ("10y-real-rate", true)]),
   ("credit",
    [("nfci", false), ("hy-credit", false), ("ig-credit", false),
     ("regional-banks-spy", false)]),
   ("risk",
    [("vix", false), ("vix-term-structure", false), ("risk-vs-safe", false),
     ("high-beta-preference", false), ("vix-3m", true)]),
   ("external",
    [("dxy", false), ("fx-realized-volatility", false), ("wti-oil", false),
     ("oil-volatility-deviation", false), ("natural-gas", false)])]

/-- The `modules` dict of one run: slug to built module, dropped modules
absent. -/
def run_modules (today : ℤ) (data : String → List (ℤ × ℚ)) : List (String × ModuleOut) :=
  all_specs.filterMap (fun sp => (build_module today data sp.1 sp.2).map (fun m => (sp.1, m)))

/-- Embedding of `overall_score = round(sum(modules[slug].score * w for slug, w in
MODULE_WEIGHTS if slug in modules), 1)` — note: no renormalization over
present modules. -/
def overall_score_of (mods : List (String × ModuleOut)) : ℚ :=
  round1 ((MODULE_WEIGHTS.map (fun mw =>
    ((List.lookup mw.1 mods).map (fun m => m.score * mw.2)).getD 0)).sum)

/-- Embedding of `prev_overall`, built the same way from the modules' `prevScore`. -/
def prev_overall_of (mods : List (String × ModuleOut)) : ℚ :=
  round1 ((MODULE_WEIGHTS.map (fun mw =>
    ((List.lookup mw.1 mods).map (fun m => m.prevScore * mw.2)).getD 0)).sum)

/-- The un-rounded weighted module sum feeding `overall_score`. -/
def weighted_module_sum (mods : List (String × ModuleOut)) : ℚ :=
  (MODULE_WEIGHTS.map (fun mw =>
    ((List.lookup mw.1 mods).map (fun m => m.score * mw.2)).getD 0)).sum

/-- The total configured weight of the modules actually present. -/
def present_weight (mods : List (String × ModuleOut)) : ℚ :=
  (MODULE_WEIGHTS.map (fun mw =>
    if (List.lookup mw.1 mods).isSome then mw.2 else 0)).sum

/-- Modelled from the spec (§4.6 / module-drop law): overall score as the
weighted average of present module scores with weights renormalized to sum
to 1 over present modules. -/
def spec_renorm_overall (mods : List (String × ModuleOut)) : ℚ :=
  round1 (weighted_module_sum mods / present_weight mods)

/-- The `lift_drag` point contributions of one run (`pts` fields, in module
then factor order; the later descending sort permutes but never changes
them). -/
def lift_drag (today : ℤ) (data : String → List (ℤ × ℚ)) : List ℚ :=
  MODULE_WEIGHTS.flatMap (fun mw =>
    match List.lookup mw.1 (run_modules today data) with
    | none => []
    | some m =>
      let scored := scored_of m.factors
      scored.filterMap (fun f =>
        let ss := (make_score_series today (data f.fid) f.fid).map Prod.snd
        if ss.length < 9 then none
        else
          let factor_w := (FACTOR_WEIGHTS mw.1 f.fid).getD (1 / (scored.length : ℚ)) * mw.2
          let score_now := ss.getD (ss.length - 1) 0
          let score_7d := if 8 < ss.length then ss.getD (ss.length - 8) 0 else score_now
          some (round2 ((score_now - score_7d) * factor_w))))

/-- Embedding of `lift_drag.sort(key=pts, reverse=True)`. -/
def lift_drag_sorted (today : ℤ) (data : String → List (ℤ × ℚ)) : List ℚ :=
  List.insertionSort (fun a b => b ≤ a) (lift_drag today data)

/-- Embedding of `score_lift`: the strictly positive contributions. -/
def score_lift (pts : List ℚ) : List ℚ := pts.filter (fun p => 0 < p)

/-- Embedding of `score_drag`: the strictly negative contributions. -/
def score_drag (pts : List ℚ) : List ℚ := pts.filter (fun p => p < 0)

/-- Module trend direction (`build_module_obj`): compare last and first of
the final 3 observations, thresholds `±1`. -/
def module_trend_dir (ts : List ℚ) : String :=
  let recent := ts.drop (ts.length - 3)
  if 2 ≤ recent.length ∧ recent.getD 0 0 + 1 < recent.getD (recent.length - 1) 0 then
    "improving"
  else if 2 ≤ recent.length ∧ recent.getD (recent.length - 1) 0 < recent.getD 0 0 - 1 then
    "declining"
  else "stable"

/-- Overall trend direction: same comparison with thresholds `±0.5`. -/
def overall_trend_dir (ts : List ℚ) : String :=
  let recent := ts.drop (ts.length - 3)
  if 2 ≤ recent.length ∧ recent.getD 0 0 + 1/2 < recent.getD (recent.length - 1) 0 then
    "improving"
  else if 2 ≤ recent.length ∧ recent.getD (recent.length - 1) 0 < recent.getD 0 0 - 1/2 then
    "declining"
  else "stable"

/-- Modelled from the spec (§4.3): the claimed percentile formula
`((c_lt + c_le) / (2n)) * 100`. -/
def spec_pct_formula (a : List ℚ) (x : ℚ) : ℚ :=
  (((a.filter (fun v => v < x)).length : ℚ) + (a.filter (fun v => v ≤ x)).length)
    / (2 * a.length) * 100

/-! ### Concrete inputs used to exercise the pipeline -/
/-- A 12-observation strictly increasing series ending `today = 0`, entirely
inside every window. -/
def series12 : List (ℤ × ℚ) :=
  [(-11, 1), (-10, 2), (-9, 3), (-8, 4), (-7, 5), (-6, 6),
   (-5, 7), (-4, 8), (-3, 9), (-2, 10), (-1, 11), (0, 12)]

/-- A run in which six modules each load exactly one (non-inverted) factor
and every `funding` series is empty, so the funding module is dropped. -/
def dataC3 (fid : String) : List (ℤ × ℚ) :=
  if fid = "fed-net-liquidity" ∨ fid = "30y-10y-term-premium" ∨ fid = "real-curve" ∨
     fid = "hy-credit" ∨ fid = "risk-vs-safe" ∨ fid = "wti-oil" then series12 else []

/-- A run in which only the `fed-net-liquidity` series loads. -/
def dataC4 (fid : String) : List (ℤ × ℚ) :=
  if fid = "fed-net-liquidity" then series12 else []

/-- Ten observations, all older than the 5-year percentile cutoff but inside
the raw fetch range (`START_RAW` is cutoff minus 200 days). -/
def seriesC9 : List (ℤ × ℚ) :=
  [(-1900, 1), (-1899, 2), (-1898, 3), (-1897, 4), (-1896, 5),
   (-1895, 6), (-1894, 7), (-1893, 8), (-1892, 9), (-1891, 10)]

/-- Eleven distinct recent observations with values `0..10`. -/
def seriesC10 : List (ℤ × ℚ) :=
  [(-10, 0), (-9, 1), (-8, 2), (-7, 3), (-6, 4), (-5, 5),
   (-4, 6), (-3, 7), (-2, 8), (-1, 9), (0, 10)]

/-- Weight table and factor list realizing the spec's module-weight example
(configured weights `[0.8, 0.8, 0.4]`, summing to 2). -/
def fwC7 (fid : String) : Option ℚ :=
  if fid = "hy-credit" then some (8/10)
  else if fid = "ig-credit" then some (8/10)
  else if fid = "regional-banks-spy" then some (4/10)
  else none

/-- Three scored factors at percentiles 100 / 50 / 0 (none inverted). -/
def scoredC7 : List FactorOut :=
  [⟨"hy-credit", 100, false⟩, ⟨"ig-credit", 50, false⟩, ⟨"regional-banks-spy", 0, false⟩]

set_option maxRecDepth 2000000

/-- A one-module hand input for the overall-score law: liquidity present
with score and previous score 70, every other module dropped. -/
def modsC3w : List (String × ModuleOut) :=
  [("liquidity", ⟨70, 70, []⟩)]

/-- The 11 bucket boundaries of `percentile_dist`'s histogram: the
`0,10,…,90`-th percentiles and, as the final upper bound, the 99.9th. -/
def npb (today : ℤ) (s : List (ℤ × ℚ)) (i : ℕ) : ℚ :=
  if i = 10 then
    np_percentile_sorted (List.insertionSort (· ≤ ·) (window5y today s)) (999/10)
  else
    np_percentile_sorted (List.insertionSort (· ≤ ·) (window5y today s)) (10 * i)

theorem roundHalfEven_le (x : ℚ) : (roundHalfEven x : ℚ) ≤ x + 1/2 := by
  unfold roundHalfEven
  have hf : (⌊x⌋ : ℚ) ≤ x := Int.floor_le x
  split_ifs with h1 h2 h3
  · linarith
  · push_cast
    linarith
  · linarith
  · push_cast
    have := le_of_not_lt h2
    linarith

theorem le_roundHalfEven (x : ℚ) : x - 1/2 ≤ (roundHalfEven x : ℚ) := by
  unfold roundHalfEven
  have hf : x - 1 < (⌊x⌋ : ℚ) := by
    have := Int.lt_floor_add_one x
    linarith
  split_ifs with h1 h2 h3
  · linarith
  · push_cast
    linarith
  · have := le_of_not_lt h2
    linarith
  · push_cast
    linarith

theorem round1_nonneg {x : ℚ} (hx : 0 ≤ x) : 0 ≤ round1 x := by
  unfold round1
  have h := le_roundHalfEven (10 * x)
  have hz : (-1 : ℤ) < roundHalfEven (10 * x) := by
    have : (-1 : ℚ) < (roundHalfEven (10 * x) : ℚ) := by linarith
    exact_mod_cast this
  have : (0 : ℤ) ≤ roundHalfEven (10 * x) := by omega
  have : (0 : ℚ) ≤ (roundHalfEven (10 * x) : ℚ) := by exact_mod_cast this
  positivity

theorem round1_le_of_le {x c : ℚ} (hc : x ≤ c) (hcz : (10 * c).den = 1) :
    round1 x ≤ c := by
  unfold round1
  have h := roundHalfEven_le (10 * x)
  have hlt : (roundHalfEven (10 * x) : ℚ) < 10 * c + 1 := by linarith
  have hint : (10 * c : ℚ) = ((10 * c).num : ℚ) := by
    conv_lhs => rw [← Rat.num_div_den (10 * c), hcz]
    simp
  rw [hint] at hlt
  have : roundHalfEven (10 * x) < (10 * c).num + 1 := by exact_mod_cast hlt
  have hle : roundHalfEven (10 * x) ≤ (10 * c).num := by omega
  have h2 : (roundHalfEven (10 * x) : ℚ) ≤ ((10 * c).num : ℚ) := by exact_mod_cast hle
  rw [← hint] at h2
  linarith

/-! ### General-purpose lemmas -/
theorem list_length_filter_le_split (a : List ℚ) (x : ℚ) :
    (a.filter (fun v => v ≤ x)).length
      = (a.filter (fun v => v < x)).length + (a.filter (fun v => v = x)).length := by
  induction a with
  | nil => simp
  | cons hd tl ih =>
    by_cases h1 : hd < x
    · simp [List.filter_cons, h1, le_of_lt h1, ne_of_lt h1, ih]
      omega
    · by_cases h2 : hd = x
      · subst h2
        simp [List.filter_cons, h1, ih]
        omega
      · have h3 : ¬ hd ≤ x := fun hle => h2 (le_antisymm hle (le_of_not_lt h1))
        simp [List.filter_cons, h1, h2, h3, ih]

theorem list_filter_eq_pos {a : List ℚ} {x : ℚ} (hx : x ∈ a) :
    0 < (a.filter (fun v => v = x)).length := by
  have : x ∈ a.filter (fun v => v = x) := by
    rw [List.mem_filter]
    exact ⟨hx, by simp⟩
  exact List.length_pos.mpr (List.ne_nil_of_mem this)

theorem list_sum_map_div {α : Type} (l : List α) (f : α → ℚ) (c : ℚ) :
    (l.map (fun a => f a / c)).sum = (l.map f).sum / c := by
  induction l with
  | nil => simp
  | cons hd tl ih => simp [ih, add_div]

theorem list_filter_pos_neg_sum (l : List ℚ) :
    (l.filter (fun p => 0 < p)).sum + (l.filter (fun p => p < 0)).sum = l.sum := by
  induction l with
  | nil => simp
  | cons hd tl ih =>
    rcases lt_trichotomy 0 hd with h | h | h
    · simp [List.filter_cons, h, not_lt_of_lt h, not_lt.mpr (le_of_lt h)]
      linarith
    · simp [List.filter_cons, ← h]
      linarith
    · simp [List.filter_cons, h, not_lt_of_lt h, not_lt.mpr (le_of_lt h)]
      linarith

/-! ### C1 / C2: the percentile engine's formula -/
/-- C1 (counterexample): on the window `[10,20,20,30]` with member query
`20`, the spec's formula `((c_lt + c_le) / (2n)) * 100` yields `50`,
but the engine (scipy `kind="rank"`) yields `62.5`. -/
theorem c1_counterexample :
    spec_pct_formula [10, 20, 20, 30] 20 = 50 ∧
    percentileofscore [10, 20, 20, 30] 20 = 125/2 ∧
    (50 : ℚ) ≠ 125/2 := by
  with_unfolding_all decide

/-- C1 (amended): for a member query `x` of a window with at least 2 values,
the engine returns `((c_lt + c_le + 1) / (2n)) * 100` — the average-rank
formula, which exceeds the claimed `((c_lt + c_le) / (2n)) * 100` by
`50/n`. -/
theorem c1_member_rank_formula (a : List ℚ) (x : ℚ) (hx : x ∈ a) (hn : 2 ≤ a.length) :
    percentileofscore a x
      = (((a.filter (fun v => v < x)).length : ℚ)
          + (a.filter (fun v => v ≤ x)).length + 1) / (2 * a.length) * 100 := by
  have hlt : (a.filter (fun v => v < x)).length < (a.filter (fun v => v ≤ x)).length := by
    rw [list_length_filter_le_split a x]
    have := list_filter_eq_pos hx
    omega
  have hn0 : (a.length : ℚ) ≠ 0 := by
    have : 0 < a.length := by omega
    exact_mod_cast Nat.pos_iff_ne_zero.mp this
  rw [percentileofscore]
  simp only [if_pos hlt]
  field_simp
  ring

/-- C1 witness: the amended formula at the window `[10,20,30,40,50]`,
query `30`. -/
theorem c1_member_rank_formula_witness :
    percentileofscore [10, 20, 30, 40, 50] 30
      = ((([10, 20, 30, 40, 50] : List ℚ).filter (fun v => v < 30)).length
          + (([10, 20, 30, 40, 50] : List ℚ).filter (fun v => v ≤ 30)).length + 1)
        / (2 * ([10, 20, 30, 40, 50] : List ℚ).length) * 100 :=
  c1_member_rank_formula [10, 20, 30, 40, 50] 30 (by decide) (by decide)

/-- C2 (counterexample): the engine returns `60.0`, not `50.0`, for query
`30` in the window `[10,20,30,40,50]`. -/
theorem c2_counterexample :
    percentileofscore [10, 20, 30, 40, 50] 30 = 60 ∧ (60 : ℚ) ≠ 50 := by
  with_unfolding_all decide

/-- C2 (amended): the engine's actual values on the two spec windows:
`60.0` for query `30` in `[10,20,30,40,50]`, and `62.5` for query `20` in
`[10,20,20,30]` (the duplicate case the spec gives is correct). -/
theorem c2_spec_windows :
    percentileofscore [10, 20, 30, 40, 50] 30 = 60 ∧
    percentileofscore [10, 20, 20, 30] 20 = 125/2 := by
  with_unfolding_all decide

/-! ### C5 / C6: factor scorer and status -/
/-- C5: for a raw percentile `p ∈ [0,100]`, an inverted factor scores
`round1 (100 - p)` and a non-inverted factor scores `round1 p` (the clamp
to `[0,100]` is inactive there). -/
theorem c5_inversion_law (factor_id : String) (p : ℚ) (h0 : 0 ≤ p) (h100 : p ≤ 100) :
    score_from_pct p factor_id
      = round1 (if INVERT_FACTORS.contains factor_id then 100 - p else p) := by
  rw [score_from_pct]
  split_ifs with h
  · rw [min_eq_right (by linarith), max_eq_right (by linarith)]
  · rw [min_eq_right h100, max_eq_right h0]

/-- C5 witness: the inverted factor `vix` at raw percentile 30. -/
theorem c5_inversion_law_witness :
    score_from_pct 30 "vix"
      = round1 (if INVERT_FACTORS.contains "vix" then 100 - 30 else 30) :=
  c5_inversion_law "vix" 30 (by norm_num) (by norm_num)

/-- C6: every factor score lies in `[0,100]` (for any raw percentile), and
the status function takes the claimed values at the boundary scores
`66.0 / 65.9 / 33.0 / 32.9`. -/
theorem c6_score_bounds_and_status (factor_id : String) (p : ℚ) :
    (0 ≤ score_from_pct p factor_id ∧ score_from_pct p factor_id ≤ 100) ∧
    get_status 66 = "supportive" ∧ get_status (659/10) = "neutral" ∧
    get_status 33 = "neutral" ∧ get_status (329/10) = "restrictive" := by
  refine ⟨⟨?_, ?_⟩, by with_unfolding_all decide⟩
  · exact round1_nonneg (le_max_left 0 _)
  · rw [score_from_pct]
    refine round1_le_of_le (max_le (by norm_num) (min_le_left _ _)) ?_
    norm_num

theorem sum_map_mul_div (l : List (ℚ × ℚ)) (c : ℚ) :
    (l.map (fun p => p.1 * (p.2 / c))).sum = (l.map (fun p => p.1 * p.2)).sum / c := by
  induction l with
  | nil => simp
  | cons hd tl ih => simp [ih, add_div, mul_div_assoc]

/-! ### C7: module-score weight renormalization -/
/-- C7: whenever the present scored factors carry positive total weight, the
module score is the weighted average of their current scores under the
weights `w_i / Σ w_j`, which sum to 1 — configured weights are renormalized,
not used raw (an unconfigured present factor enters with the equal share
`1/n` before renormalization). -/
theorem c7_module_weight_renormalization (fw : String → Option ℚ) (scored : List FactorOut)
    (h : 0 < ((weighted_scores fw scored).map (fun p => p.2)).sum) :
    module_score_fw fw scored
      = round1 (((weighted_scores fw scored).map
          (fun p => p.1 * (p.2 / ((weighted_scores fw scored).map (fun p => p.2)).sum))).sum) ∧
    ((weighted_scores fw scored).map
        (fun p => p.2 / ((weighted_scores fw scored).map (fun p => p.2)).sum)).sum = 1 := by
  constructor
  · rw [module_score_fw, sum_map_mul_div]
  · rw [list_sum_map_div (weighted_scores fw scored) (fun p => p.2)]
    exact div_self (ne_of_gt h)

/-- C7 witness: configured weights `[0.8, 0.8, 0.4]` (total 2) and scores
`[100, 50, 0]`; the module score equals the renormalized weighted average. -/
theorem c7_module_weight_renormalization_witness :
    module_score_fw fwC7 scoredC7
      = round1 (((weighted_scores fwC7 scoredC7).map
          (fun p => p.1 * (p.2 / ((weighted_scores fwC7 scoredC7).map (fun p => p.2)).sum))).sum) ∧
    ((weighted_scores fwC7 scoredC7).map
        (fun p => p.2 / ((weighted_scores fwC7 scoredC7).map (fun p => p.2)).sum)).sum = 1 :=
  c7_module_weight_renormalization fwC7 scoredC7 (by with_unfolding_all decide)

/-! ### C8: trend direction -/
/-- C8 (counterexample): on the overall score history `[50, 50.7]` the rise
is `0.7 ≤ 1`, so the claimed `±1` rule says "stable", but the code
classifies the overall trend as "improving" (it uses `±0.5` at the overall
level). -/
theorem c8_counterexample :
    overall_trend_dir [50, 507/10] = "improving" ∧
    (507/10 : ℚ) - 50 ≤ 1 ∧
    module_trend_dir [50, 507/10] = "stable" := by
  with_unfolding_all decide

/-- C8 (amended): for a history with at least 3 observations, both trend
classifiers compare the most recent value to the value 2 observations
earlier (the first of the last 3); the module level uses thresholds `±1`
and the overall level uses `±0.5`. -/
theorem c8_trend_rules (ts : List ℚ) (h : 3 ≤ ts.length) :
    module_trend_dir ts =
      (if ts.getD (ts.length - 3) 0 + 1 < ts.getD (ts.length - 1) 0 then "improving"
       else if ts.getD (ts.length - 1) 0 < ts.getD (ts.length - 3) 0 - 1 then "declining"
       else "stable") ∧
    overall_trend_dir ts =
      (if ts.getD (ts.length - 3) 0 + 1/2 < ts.getD (ts.length - 1) 0 then "improving"
       else if ts.getD (ts.length - 1) 0 < ts.getD (ts.length - 3) 0 - 1/2 then "declining"
       else "stable") := by
  have hlen : (ts.drop (ts.length - 3)).length = 3 := by
    rw [List.length_drop]
    omega
  have h0 : (ts.drop (ts.length - 3)).getD 0 0 = ts.getD (ts.length - 3) 0 := by
    simp [List.getD_eq_getElem?_getD, List.getElem?_drop]
  have h2 : (ts.drop (ts.length - 3)).getD ((ts.drop (ts.length - 3)).length - 1) 0
      = ts.getD (ts.length - 1) 0 := by
    rw [hlen]
    simp only [List.getD_eq_getElem?_getD, List.getElem?_drop]
    congr 2
    omega
  rw [hlen] at h2
  constructor
  · rw [module_trend_dir]
    simp only [hlen, h0, h2]
    norm_num
  · rw [overall_trend_dir]
    simp only [hlen, h0, h2]
    norm_num

/-- C8 witness: the rules at the concrete history `[10, 20, 50]`. -/
theorem c8_trend_rules_witness :
    module_trend_dir [10, 20, 50] =
      (if ([10, 20, 50] : List ℚ).getD 0 0 + 1 < ([10, 20, 50] : List ℚ).getD 2 0 then "improving"
       else if ([10, 20, 50] : List ℚ).getD 2 0 < ([10, 20, 50] : List ℚ).getD 0 0 - 1 then "declining"
       else "stable") ∧
    overall_trend_dir [10, 20, 50] =
      (if ([10, 20, 50] : List ℚ).getD 0 0 + 1/2 < ([10, 20, 50] : List ℚ).getD 2 0 then "improving"
       else if ([10, 20, 50] : List ℚ).getD 2 0 < ([10, 20, 50] : List ℚ).getD 0 0 - 1/2 then "declining"
       else "stable") :=
  c8_trend_rules [10, 20, 50] (by decide)

/-! ### C3: overall score under dropped modules -/
/-- C3 (counterexample): in the `dataC3` run the funding module is dropped
(all its series are empty) and each of the six surviving modules scores
100.0, yet the overall score is `85.7`, not the renormalized weighted
average `100.0` — the dropped module's `1/7` share is lost, not
redistributed. -/
theorem c3_counterexample :
    List.lookup "funding" (run_modules 0 dataC3) = none ∧
    (∀ m ∈ run_modules 0 dataC3, m.2.score = 100) ∧
    (run_modules 0 dataC3).length = 6 ∧
    overall_score_of (run_modules 0 dataC3) = 857/10 ∧
    spec_renorm_overall (run_modules 0 dataC3) = 100 ∧
    (857/10 : ℚ) ≠ 100 := by
  with_unfolding_all decide

/-- C3 (amended): the overall score is `round1` of the weighted **sum** of
present module scores with the configured weights (`1/7` each) taken raw;
equivalently it equals the spec's renormalized weighted average scaled by
the total present weight (so the two agree only when no module is
dropped). -/
theorem c3_overall_not_renormalized (mods : List (String × ModuleOut))
    (h : present_weight mods ≠ 0) :
    overall_score_of mods
      = round1 (present_weight mods * (weighted_module_sum mods / present_weight mods)) := by
  have he : present_weight mods * (weighted_module_sum mods / present_weight mods)
      = weighted_module_sum mods := by
    field_simp
  rw [overall_score_of, he, weighted_module_sum]

/-- C3 witness: the law at the one-module input `modsC3w`. -/
theorem c3_overall_not_renormalized_witness :
    overall_score_of modsC3w
      = round1 (present_weight modsC3w * (weighted_module_sum modsC3w / present_weight modsC3w)) :=
  c3_overall_not_renormalized modsC3w (by with_unfolding_all decide)

/-! ### C4: lift/drag attribution conservation -/
/-- C4 (counterexample): in the `dataC4` run a single factor (configured
weight 0.3) is scored; the lift/drag total is `2.5` points while the overall
index moves `8.3` points over 7 days — the difference `5.8` far exceeds the
claimed `0.1` tolerance.  (The attribution multiplies by the raw configured
factor weight, while the overall score renormalizes it to 1; the score
series also uses the 5y+90d window rather than `pct_rank`'s 5y window.) -/
theorem c4_counterexample :
    (score_lift (lift_drag_sorted 0 dataC4)).sum
      + (score_drag (lift_drag_sorted 0 dataC4)).sum = 5/2 ∧
    overall_score_of (run_modules 0 dataC4) - prev_overall_of (run_modules 0 dataC4) = 83/10 ∧
    ¬ |(5/2 : ℚ) - 83/10| ≤ 1/10 := by
  with_unfolding_all decide

/-- C4 (amended): the lift and drag lists partition the nonzero rounded
contributions, so their totals always sum to the total of all `lift_drag`
contributions — each being a 7-day score-series change times the raw
configured factor weight times the module weight; that total, not the
overall 7-day point change, is what the attribution conserves. -/
theorem c4_lift_drag_partition_sum (today : ℤ) (data : String → List (ℤ × ℚ)) :
    (score_lift (lift_drag_sorted today data)).sum
      + (score_drag (lift_drag_sorted today data)).sum
      = (lift_drag today data).sum := by
  rw [score_lift, score_drag, list_filter_pos_neg_sum]
  exact List.Perm.sum_eq (List.perm_insertionSort _ _)

/-! ### C9: scoring must not raise on normal data gaps -/
/-- C9 (the claim is right, the code is not): a series of 10 observations,
all older than the 5-year cutoff, passes `make_factor`'s `len >= 10` guard
and gets the neutral `50.0` percentile fallback from `pct_rank`, but
`percentile_dist` then calls `np.percentile` on the **empty** 5-year window,
which raises (modelled as `none`) instead of falling back — aborting the
run, contrary to the error-handling design.  A series shorter than 10
observations is, as claimed, excluded via `make_factor = none`. -/
theorem c9_histogram_raises_on_empty_window :
    make_factor 0 "vix" false [(-1, 1), (0, 2)] = none ∧
    ¬ seriesC9.length < 10 ∧
    (make_factor 0 "fed-net-liquidity" false seriesC9).isSome ∧
    window5y 0 seriesC9 = [] ∧
    pct_rank 0 seriesC9 = 50 ∧
    percentile_dist 0 seriesC9 = none := by
  with_unfolding_all decide

/-! ### C10: histogram bucket structure -/
theorem getD_default_irrel (s : List ℚ) {i : ℕ} (h : i < s.length) (d d' : ℚ) :
    s.getD i d = s.getD i d' := by
  rw [List.getD_eq_getElem s d h, List.getD_eq_getElem s d' h]

theorem sorted_getD_mono {s : List ℚ} (hs : List.Sorted (· ≤ ·) s) {i j : ℕ}
    (hij : i ≤ j) (hj : j < s.length) : s.getD i 0 ≤ s.getD j 0 := by
  have hi : i < s.length := lt_of_le_of_lt hij hj
  rw [List.getD_eq_getElem s 0 hi, List.getD_eq_getElem s 0 hj]
  have := List.Sorted.rel_get_of_le hs (a := ⟨i, hi⟩) (b := ⟨j, hj⟩) hij
  simpa [List.get_eq_getElem] using this

theorem sorted_getD_zero_le {s : List ℚ} (hs : List.Sorted (· ≤ ·) s) {v : ℚ}
    (hv : v ∈ s) : s.getD 0 0 ≤ v := by
  cases s with
  | nil => cases hv
  | cons hd tl =>
    rw [List.sorted_cons] at hs
    rcases List.mem_cons.mp hv with h | h
    · simp [h]
    · simpa using hs.1 v h

theorem np_interp_upper_le {s : List ℚ} (hs : List.Sorted (· ≤ ·) s) {i : ℕ}
    (h : i + 1 < s.length) : s.getD i 0 ≤ s.getD (i + 1) (s.getD i 0) := by
  rw [getD_default_irrel s h _ 0]
  exact sorted_getD_mono hs (Nat.le_succ i) h

theorem np_interp_mono {s : List ℚ} (hs : List.Sorted (· ≤ ·) s)
    {p1 p2 : ℚ} (h0 : 0 ≤ p1) (h12 : p1 ≤ p2) (hn : p2 ≤ (s.length : ℚ) - 1) :
    np_interp s p1 ≤ np_interp s p2 := by
  have h02 : 0 ≤ p2 := le_trans h0 h12
  have hn1 : 1 ≤ s.length := by
    by_contra hcon
    have hz : s.length = 0 := by omega
    rw [hz] at hn
    norm_num at hn
    linarith
  have hf1 : 0 ≤ ⌊p1⌋ := Int.floor_nonneg.mpr h0
  have hf2 : 0 ≤ ⌊p2⌋ := Int.floor_nonneg.mpr h02
  have hc1 : (((⌊p1⌋).toNat : ℕ) : ℚ) = (⌊p1⌋ : ℚ) := by
    exact_mod_cast congrArg Int.cast (Int.toNat_of_nonneg hf1)
  have hc2 : (((⌊p2⌋).toNat : ℕ) : ℚ) = (⌊p2⌋ : ℚ) := by
    exact_mod_cast congrArg Int.cast (Int.toNat_of_nonneg hf2)
  have hle1 : (((⌊p1⌋).toNat : ℕ) : ℚ) ≤ p1 := by rw [hc1]; exact Int.floor_le p1
  have hle2 : (((⌊p2⌋).toNat : ℕ) : ℚ) ≤ p2 := by rw [hc2]; exact Int.floor_le p2
  have hlt1 : p1 < (((⌊p1⌋).toNat : ℕ) : ℚ) + 1 := by rw [hc1]; exact Int.lt_floor_add_one p1
  have hlt2 : p2 < (((⌊p2⌋).toNat : ℕ) : ℚ) + 1 := by rw [hc2]; exact Int.lt_floor_add_one p2
  have hi12 : (⌊p1⌋).toNat ≤ (⌊p2⌋).toNat := Int.toNat_le_toNat (Int.floor_le_floor h12)
  have hi2n : (⌊p2⌋).toNat < s.length := by
    have ha : (⌊p2⌋ : ℚ) ≤ (s.length : ℚ) - 1 := le_trans (Int.floor_le p2) hn
    have hb : ⌊p2⌋ ≤ (s.length : ℤ) - 1 := by exact_mod_cast ha
    omega
  rw [np_interp, np_interp]
  by_cases heq : (⌊p1⌋).toNat = (⌊p2⌋).toNat
  · rw [heq]
    rcases Nat.lt_or_ge ((⌊p2⌋).toNat + 1) s.length with hr | hr
    · have hul := np_interp_upper_le hs hr
      have := mul_le_mul_of_nonneg_right
        (show p1 - (((⌊p2⌋).toNat : ℕ) : ℚ) ≤ p2 - (((⌊p2⌋).toNat : ℕ) : ℚ) by linarith)
        (show (0 : ℚ) ≤ s.getD ((⌊p2⌋).toNat + 1) (s.getD (⌊p2⌋).toNat 0)
            - s.getD (⌊p2⌋).toNat 0 by linarith)
      linarith
    · rw [List.getD_eq_default s _ hr]
      simp
  · have hlt12 : (⌊p1⌋).toNat < (⌊p2⌋).toNat := lt_of_le_of_ne hi12 heq
    have hr1 : (⌊p1⌋).toNat + 1 < s.length := by omega
    have hu1 := np_interp_upper_le hs hr1
    have hv1 : s.getD (⌊p1⌋).toNat 0
        + (p1 - (((⌊p1⌋).toNat : ℕ) : ℚ))
          * (s.getD ((⌊p1⌋).toNat + 1) (s.getD (⌊p1⌋).toNat 0) - s.getD (⌊p1⌋).toNat 0)
        ≤ s.getD ((⌊p1⌋).toNat + 1) (s.getD (⌊p1⌋).toNat 0) := by
      have := mul_le_mul_of_nonneg_right
        (show p1 - (((⌊p1⌋).toNat : ℕ) : ℚ) ≤ 1 by linarith)
        (show (0 : ℚ) ≤ s.getD ((⌊p1⌋).toNat + 1) (s.getD (⌊p1⌋).toNat 0)
            - s.getD (⌊p1⌋).toNat 0 by linarith)
      linarith
    have hmid : s.getD ((⌊p1⌋).toNat + 1) (s.getD (⌊p1⌋).toNat 0) ≤ s.getD (⌊p2⌋).toNat 0 := by
      rw [getD_default_irrel s hr1 _ 0]
      exact sorted_getD_mono hs (by omega) hi2n
    have hv2 : s.getD (⌊p2⌋).toNat 0
        ≤ s.getD (⌊p2⌋).toNat 0
          + (p2 - (((⌊p2⌋).toNat : ℕ) : ℚ))
            * (s.getD ((⌊p2⌋).toNat + 1) (s.getD (⌊p2⌋).toNat 0) - s.getD (⌊p2⌋).toNat 0) := by
      rcases Nat.lt_or_ge ((⌊p2⌋).toNat + 1) s.length with hr | hr
      · have hul := np_interp_upper_le hs hr
        have := mul_nonneg
          (show (0 : ℚ) ≤ p2 - (((⌊p2⌋).toNat : ℕ) : ℚ) by linarith)
          (show (0 : ℚ) ≤ s.getD ((⌊p2⌋).toNat + 1) (s.getD (⌊p2⌋).toNat 0)
              - s.getD (⌊p2⌋).toNat 0 by linarith)
        linarith
      · rw [List.getD_eq_default s _ hr]
        simp
    linarith

theorem np_percentile_sorted_mono {s : List ℚ} (hs : List.Sorted (· ≤ ·) s) (hne : s ≠ [])
    {q1 q2 : ℚ} (h0 : 0 ≤ q1) (h12 : q1 ≤ q2) (h100 : q2 ≤ 100) :
    np_percentile_sorted s q1 ≤ np_percentile_sorted s q2 := by
  have hn1 : 1 ≤ s.length := List.length_pos.mpr hne
  have hnq : (0 : ℚ) ≤ (s.length : ℚ) - 1 := by
    have : (1 : ℚ) ≤ (s.length : ℚ) := by exact_mod_cast hn1
    linarith
  rw [np_percentile_sorted, np_percentile_sorted]
  apply np_interp_mono hs
  · positivity
  · apply div_le_div_of_nonneg_right ?_ (by norm_num)
    exact mul_le_mul_of_nonneg_right h12 hnq
  · rw [div_le_iff₀ (by norm_num)]
    nlinarith

theorem np_percentile_sorted_zero (s : List ℚ) : np_percentile_sorted s 0 = s.getD 0 0 := by
  simp [np_percentile_sorted, np_interp]

theorem length_filter_interval_add (l : List ℚ) {a b c : ℚ} (hab : a ≤ b) (hbc : b ≤ c) :
    (l.filter (fun v => a ≤ v ∧ v < b)).length + (l.filter (fun v => b ≤ v ∧ v < c)).length
      = (l.filter (fun v => a ≤ v ∧ v < c)).length := by
  induction l with
  | nil => simp
  | cons hd tl ih =>
    by_cases h1 : a ≤ hd ∧ hd < b <;> by_cases h2 : b ≤ hd ∧ hd < c <;>
      by_cases h3 : a ≤ hd ∧ hd < c
    · exact absurd h2.1 (not_le.mpr h1.2)
    · exact absurd h2.1 (not_le.mpr h1.2)
    · rw [List.filter_cons_of_pos (p := fun v => decide (a ≤ v ∧ v < b)) (decide_eq_true h1),
        List.filter_cons_of_neg (p := fun v => decide (b ≤ v ∧ v < c)) (by simpa using h2),
        List.filter_cons_of_pos (p := fun v => decide (a ≤ v ∧ v < c)) (decide_eq_true h3),
        List.length_cons, List.length_cons]
      omega
    · exact absurd ⟨h1.1, lt_of_lt_of_le h1.2 hbc⟩ h3
    · rw [List.filter_cons_of_neg (p := fun v => decide (a ≤ v ∧ v < b)) (by simpa using h1),
        List.filter_cons_of_pos (p := fun v => decide (b ≤ v ∧ v < c)) (decide_eq_true h2),
        List.filter_cons_of_pos (p := fun v => decide (a ≤ v ∧ v < c)) (decide_eq_true h3),
        List.length_cons, List.length_cons]
      omega
    · exact absurd ⟨le_trans hab h2.1, h2.2⟩ h3
    · rcases h3 with ⟨ha3, hc3⟩
      by_cases hdb : hd < b
      · exact absurd ⟨ha3, hdb⟩ h1
      · exact absurd ⟨not_lt.mp hdb, hc3⟩ h2
    · rw [List.filter_cons_of_neg (p := fun v => decide (a ≤ v ∧ v < b)) (by simpa using h1),
        List.filter_cons_of_neg (p := fun v => decide (b ≤ v ∧ v < c)) (by simpa using h2),
        List.filter_cons_of_neg (p := fun v => decide (a ≤ v ∧ v < c)) (by simpa using h3)]
      omega

theorem counts_telescope (l : List ℚ) (b : ℕ → ℚ) :
    ∀ k : ℕ, (∀ i, i < k → b i ≤ b (i + 1)) →
      ((List.range k).map (fun i => (l.filter (fun v => b i ≤ v ∧ v < b (i + 1))).length)).sum
        = (l.filter (fun v => b 0 ≤ v ∧ v < b k)).length := by
  intro k
  induction k with
  | zero =>
    intro _
    symm
    simp only [List.range_zero, List.map_nil, List.sum_nil, List.length_eq_zero,
      List.filter_eq_nil_iff]
    intro v _
    simp only [decide_eq_true_eq, not_and, not_lt]
    intro h1
    exact h1
  | succ k ih =>
    intro hmono
    have aux : ∀ j, j ≤ k → b 0 ≤ b j := by
      intro j
      induction j with
      | zero => intro _; exact le_refl _
      | succ j ihj =>
        intro hj
        exact le_trans (ihj (by omega)) (hmono j (by omega))
    rw [List.range_succ, List.map_append, List.sum_append]
    simp only [List.map_cons, List.map_nil, List.sum_cons, List.sum_nil, add_zero]
    rw [ih (fun i hi => hmono i (by omega))]
    exact length_filter_interval_add l (aux k le_rfl) (hmono k (by omega))

theorem npb_mono (today : ℤ) (s : List (ℤ × ℚ))
    (hsorted : List.Sorted (· ≤ ·) (List.insertionSort (· ≤ ·) (window5y today s)))
    (hsne : List.insertionSort (· ≤ ·) (window5y today s) ≠ []) :
    ∀ i, i < 10 → npb today s i ≤ npb today s (i + 1) := by
  intro i hi
  by_cases h9 : i = 9
  · subst h9
    rw [npb, if_neg (by omega), npb, if_pos rfl]
    apply np_percentile_sorted_mono hsorted hsne (by norm_num) ?_ (by norm_num)
    norm_num
  · rw [npb, if_neg (by omega), npb, if_neg (by omega)]
    apply np_percentile_sorted_mono hsorted hsne
    · positivity
    · have : (i : ℚ) ≤ (i : ℚ) + 1 := by linarith
      push_cast
      linarith
    · have : (i : ℚ) ≤ 8 := by exact_mod_cast (by omega : i ≤ 8)
      push_cast
      linarith

/-- C10 (counterexample): an 11-observation window with values `0..10`
produces bucket counts `[1,…,1]` summing to 10: the maximum value 10 falls
in no bucket, because the last bucket is bounded above (strictly) by the
99.9th percentile, which lies below the maximum. -/
theorem c10_counterexample :
    (window5y 0 seriesC10).length = 11 ∧
    (10 : ℚ) ∈ window5y 0 seriesC10 ∧
    percentile_dist 0 seriesC10 = some [1, 1, 1, 1, 1, 1, 1, 1, 1, 1] ∧
    ([1, 1, 1, 1, 1, 1, 1, 1, 1, 1] : List ℕ).sum ≠ 11 := by
  with_unfolding_all decide

/-- C10 (amended): for a nonempty window the histogram is always produced,
and its bucket counts sum to the number of window observations **strictly
below the 99.9th percentile** of the window — each such observation lies in
exactly one bucket, while the observations at or above that boundary (in
particular the maximum, whenever it exceeds the 99.9th percentile) are
counted nowhere. -/
theorem c10_bucket_counts_sum (today : ℤ) (s : List (ℤ × ℚ))
    (h : window5y today s ≠ []) :
    ∃ counts : List ℕ,
      percentile_dist today s = some counts ∧
      counts.sum = ((window5y today s).filter (fun v =>
        v < np_percentile_sorted
              (List.insertionSort (· ≤ ·) (window5y today s)) (999/10))).length := by
  have hsorted : List.Sorted (· ≤ ·) (List.insertionSort (· ≤ ·) (window5y today s)) :=
    List.sorted_insertionSort _ _
  have hpm := List.perm_insertionSort (· ≤ ·) (window5y today s)
  have hsne : List.insertionSort (· ≤ ·) (window5y today s) ≠ [] := by
    intro hx
    apply h
    have hlen := hpm.length_eq
    rw [hx] at hlen
    exact List.length_eq_zero.mp hlen.symm
  have hne : (window5y today s).isEmpty = false := by
    rw [List.isEmpty_eq_false]
    exact h
  have hmain : percentile_dist today s
      = some ((List.range 10).map (fun (i : ℕ) =>
        ((window5y today s).filter (fun v =>
          np_percentile_sorted (List.insertionSort (· ≤ ·) (window5y today s)) (10 * (i : ℚ)) ≤ v ∧
          v < np_percentile_sorted (List.insertionSort (· ≤ ·) (window5y today s))
                (min (10 * ((i : ℚ) + 1)) (999/10)))).length)) := by
    rw [percentile_dist]
    rw [if_neg (by rw [hne]; exact Bool.false_ne_true)]
  refine ⟨_, hmain, ?_⟩
  · have hcong : (List.range 10).map (fun (i : ℕ) =>
        ((window5y today s).filter (fun v =>
          np_percentile_sorted (List.insertionSort (· ≤ ·) (window5y today s)) (10 * (i : ℚ)) ≤ v ∧
          v < np_percentile_sorted (List.insertionSort (· ≤ ·) (window5y today s))
                (min (10 * ((i : ℚ) + 1)) (999/10)))).length)
        = (List.range 10).map (fun (i : ℕ) =>
          ((window5y today s).filter (fun v =>
            npb today s i ≤ v ∧ v < npb today s (i + 1))).length) := by
      apply List.map_congr_left
      intro i hi
      have hi10 : i < 10 := List.mem_range.mp hi
      have e1 : npb today s i
          = np_percentile_sorted (List.insertionSort (· ≤ ·) (window5y today s)) (10 * (i : ℚ)) := by
        rw [npb, if_neg (by omega)]
      have e2 : npb today s (i + 1)
          = np_percentile_sorted (List.insertionSort (· ≤ ·) (window5y today s))
              (min (10 * ((i : ℚ) + 1)) (999/10)) := by
        by_cases h9 : i = 9
        · subst h9
          rw [npb, if_pos rfl]
          norm_num
        · rw [npb, if_neg (by omega)]
          have hle : (10 : ℚ) * ((i : ℚ) + 1) ≤ 999/10 := by
            have : (i : ℚ) ≤ 8 := by exact_mod_cast (by omega : i ≤ 8)
            linarith
          rw [min_eq_left hle]
          push_cast
          ring_nf
      rw [e1, e2]
    rw [hcong, counts_telescope (window5y today s) (npb today s) 10 (npb_mono today s hsorted hsne)]
    have eb0 : npb today s 0
        = (List.insertionSort (· ≤ ·) (window5y today s)).getD 0 0 := by
      rw [npb, if_neg (by omega)]
      push_cast
      rw [mul_zero, np_percentile_sorted_zero]
    have eb10 : npb today s 10
        = np_percentile_sorted (List.insertionSort (· ≤ ·) (window5y today s)) (999/10) := by
      rw [npb, if_pos rfl]
    congr 1
    apply List.filter_congr
    intro v hv
    rw [eb0, eb10, decide_eq_decide]
    have hvle : (List.insertionSort (· ≤ ·) (window5y today s)).getD 0 0 ≤ v :=
      sorted_getD_zero_le hsorted (hpm.mem_iff.mpr hv)
    exact ⟨fun x => x.2, fun x => ⟨hvle, x⟩⟩

/-- C10 witness: the amended accounting at the `0..10` window. -/
theorem c10_bucket_counts_sum_witness :
    ∃ counts : List ℕ,
      percentile_dist 0 seriesC10 = some counts ∧
      counts.sum = ((window5y 0 seriesC10).filter (fun v =>
        v < np_percentile_sorted
              (List.insertionSort (· ≤ ·) (window5y 0 seriesC10)) (999/10))).length :=
  c10_bucket_counts_sum 0 seriesC10 (by with_unfolding_all decide)
